import Mathlib

/-!
Verification of the admission decision engine in `api/v1/pod_webhook.go`
(`PodValidator.Handle`, `matchesLabels`).

Go `map[string]string` values are modelled as association lists
(`Labels`) together with a well-formedness predicate (`WFLabels`:
keys are unique, as they are in any Go map).  A possibly-nil map is
`Option Labels`: `none` is the nil map, `some []` the non-nil empty one
(the distinction `reflect.DeepEqual` observes).
-/

/-- Contents of a Go `map[string]string`, as an association list. -/
abbrev Labels := List (String × String)

/-- Go map keys are unique. -/
abbrev WFLabels (l : Labels) : Prop := (l.map Prod.fst).Nodup

/-- Lookup of a key in a Go map (first binding wins; under `WFLabels`
there is at most one binding per key). -/
def lookupLabel : Labels → String → Option String
  | [], _ => none
  | kv :: rest, k => if kv.1 = k then some kv.2 else lookupLabel rest k

/-- Models `reflect.DeepEqual` on two non-nil `map[string]string` values:
deeply equal iff they have the same length and every key of the first
maps to the same value in the second (with unique keys this is equality
as sets of pairs). -/
def mapEqB (a b : Labels) : Bool :=
  (a.length == b.length) && a.all (fun kv => lookupLabel b kv.1 == some kv.2)

/-- Models `reflect.DeepEqual(m1, m2)` on possibly-nil
`map[string]string` values: a nil map is deeply equal only to a nil map,
never to a non-nil (even empty) one. -/
def deepEqualMaps : Option Labels → Option Labels → Bool
  | none, none => true
  | some a, some b => mapEqB a b
  | _, _ => false

/-- The change detector of the spec: labels changed iff the two maps are
not deeply equal (`Handle` tests `reflect.DeepEqual(originalPod.Labels,
pod.Labels)` and treats a non-equal result as a change). -/
def changed (previous proposed : Option Labels) : Bool :=
  !(deepEqualMaps previous proposed)

/-- Models `matchesLabels(podslabels, netPolLabels)`:
`labels.Set(netPolLabels).AsSelectorPreValidated()` builds one exact
equality requirement per selector key, and `Matches` holds iff every
requirement is satisfied, i.e. every selector pair is present in the
pod labels with an equal value.  A nil Go map iterates and looks up as
an empty one, so plain `Labels` suffices here. -/
def matchesLabels (podslabels : Labels) (netPolLabels : Labels) : Bool :=
  netPolLabels.all (fun kv => lookupLabel podslabels kv.1 == some kv.2)

/-- One `metav1.LabelSelectorRequirement` (set-based requirement).
`Handle` never reads these. -/
structure LabelSelectorRequirement where
  key : String
  operator : String
  values : List String
deriving DecidableEq, Repr

/-- `metav1.LabelSelector`: exact pairs plus set-based expressions. -/
structure LabelSelector where
  matchLabels : Labels
  matchExpressions : List LabelSelectorRequirement
deriving DecidableEq, Repr

/-- A `networkingv1.NetworkPolicy`, reduced to the field `Handle`
reads: `Spec.PodSelector`. -/
structure NetworkPolicy where
  podSelector : LabelSelector
deriving DecidableEq, Repr

/-- A `corev1.Pod`, reduced to the fields `Handle` reads: its name and
its (possibly nil) label map. -/
structure Pod where
  name : String
  labels : Option Labels
deriving DecidableEq, Repr

/-- The verdict an admission response carries.
`admission.Allowed(r)` is `allowed r`;
`admission.Allowed("").WithWarnings(w)` is `allowedWithWarning "" w`;
`admission.Denied(r)` is `denied r`. -/
inductive Verdict where
  | allowed (reason : String)
  | allowedWithWarning (reason : String) (warning : String)
  | denied (reason : String)
deriving DecidableEq, Repr

def Verdict.isDenied : Verdict → Bool
  | .denied _ => true
  | _ => false

def Verdict.hasWarning : Verdict → Bool
  | .allowedWithWarning _ _ => true
  | _ => false

/-- Outcome of `v.Client.Get` for the previous pod, with Go's
`errors.IsNotFound` distinction made explicit. -/
inductive GetResult where
  | found (originalPod : Pod)
  | notFound
  | transientError (msg : String)
deriving DecidableEq, Repr

/-- What `Handle` returns: an admission response carrying a verdict, or
`admission.Errored(code, err)`. -/
inductive HandleResult where
  | response (verdict : Verdict)
  | errored (code : Nat) (msg : String)
deriving DecidableEq, Repr

/-- The policy scan of `Handle` (lines 100-106): the `for` loop over
`networkPolicyList.Items` returns the warning response on the first
policy whose `Spec.PodSelector.MatchLabels` matches the ORIGINAL pod's
labels, which as a boolean is `List.any`. -/
def referencedBy (podLabels : Labels) (policies : List NetworkPolicy) : Bool :=
  policies.any (fun np => matchesLabels podLabels np.podSelector.matchLabels)

/-- `PodValidator.Handle`, with the collaborator calls (decode of the
request, `Get` of the previous pod, `List` of the namespace's network
policies) passed in as their outcomes.  Mirrors the source line by
line: decode failure → 400; `Get` failure that is not not-found → 500;
not-found → allow as new pod; `reflect.DeepEqual` of old and new labels
→ allow as unchanged; `List` failure → 500; some policy matching the
ORIGINAL labels → allow with warning; otherwise allow.  A nil original
label map scans as empty (`.getD []`), as a nil map does in Go. -/
def handle (decodeRes : Except String Pod) (getRes : GetResult)
    (listRes : Except String (List NetworkPolicy)) : HandleResult :=
  match decodeRes with
  | .error e => .errored 400 e
  | .ok pod =>
    match getRes with
    | .transientError e => .errored 500 e
    | .notFound => .response (.allowed "New pod creation")
    | .found originalPod =>
      if deepEqualMaps originalPod.labels pod.labels then
        .response (.allowed "No label changes detected")
      else
        match listRes with
        | .error e => .errored 500 e
        | .ok items =>
          if referencedBy (originalPod.labels.getD []) items then
            .response (.allowedWithWarning ""
              "Pod labels are referenced in a NetworkPolicy")
          else
            .response (.allowed "Labels are not referenced in any NetworkPolicy")

/-! ## Helper lemmas about `lookupLabel` and `mapEqB` -/

theorem lookupLabel_mem {l : Labels} {k v : String}
    (h : lookupLabel l k = some v) : (k, v) ∈ l := by
  induction l with
  | nil => simp [lookupLabel] at h
  | cons kv rest ih =>
    obtain ⟨k1, v1⟩ := kv
    by_cases hk : k1 = k
    · simp only [lookupLabel, if_pos hk] at h
      subst hk
      injection h with h2
      subst h2
      exact List.mem_cons_self _ _
    · simp only [lookupLabel, if_neg hk] at h
      exact List.mem_cons_of_mem _ (ih h)

theorem lookupLabel_of_mem {l : Labels} (hw : WFLabels l) {k v : String}
    (h : (k, v) ∈ l) : lookupLabel l k = some v := by
  induction l with
  | nil => simp at h
  | cons kv rest ih =>
    rw [WFLabels, List.map_cons, List.nodup_cons] at hw
    rcases List.mem_cons.mp h with heq | hmem
    · rw [← heq]
      simp [lookupLabel]
    · have hne : kv.1 ≠ k := by
        intro hcontra
        exact hw.1 (hcontra ▸ List.mem_map_of_mem Prod.fst hmem)
      simp only [lookupLabel, if_neg hne]
      exact ih hw.2 hmem

theorem mapEqB_true_iff {a b : Labels} (ha : WFLabels a) (hb : WFLabels b) :
    mapEqB a b = true ↔ ∀ kv : String × String, kv ∈ a ↔ kv ∈ b := by
  have hna : a.Nodup := List.Nodup.of_map _ ha
  have hnb : b.Nodup := List.Nodup.of_map _ hb
  constructor
  · intro h
    rw [mapEqB, Bool.and_eq_true, beq_iff_eq, List.all_eq_true] at h
    obtain ⟨hlen, hsub⟩ := h
    have hsubset : a ⊆ b := by
      intro kv hkv
      have := hsub kv hkv
      rw [beq_iff_eq] at this
      have := lookupLabel_mem this
      simpa using this
    have hperm : a.Perm b :=
      (hna.subperm hsubset).perm_of_length_le (le_of_eq hlen.symm)
    exact fun kv => hperm.mem_iff
  · intro h
    have hperm : a.Perm b := (List.perm_ext_iff_of_nodup hna hnb).mpr h
    rw [mapEqB, Bool.and_eq_true, beq_iff_eq, List.all_eq_true]
    refine ⟨hperm.length_eq, fun kv hkv => ?_⟩
    rw [beq_iff_eq]
    exact lookupLabel_of_mem hb ((h kv).mp hkv)

theorem any_of_perm {α : Type} {f : α → Bool} {l1 l2 : List α}
    (h : l1.Perm l2) : l1.any f = l2.any f := by
  cases hb : l2.any f
  · rw [List.any_eq_false] at hb ⊢
    exact fun x hx => hb x (h.mem_iff.mp hx)
  · rw [List.any_eq_true] at hb ⊢
    obtain ⟨x, hx, hfx⟩ := hb
    exact ⟨x, h.mem_iff.mpr hx, hfx⟩

/-! ## Claims -/

/-- C1: whenever the collaborators succeed (the pod decodes, the
previous-state fetch is not a transient error, the policy list
succeeds), `Handle` returns a response whose verdict is never
`denied`: it is `allowed` or `allowedWithWarning`. -/
theorem handle_never_denied (pod : Pod) (getRes : GetResult)
    (items : List NetworkPolicy)
    (h : ∀ e, getRes ≠ GetResult.transientError e) :
    ∃ v, handle (.ok pod) getRes (.ok items) = .response v ∧
      v.isDenied = false := by
  cases getRes with
  | transientError e => exact absurd rfl (h e)
  | notFound => exact ⟨_, rfl, rfl⟩
  | found originalPod =>
    simp only [handle]
    by_cases hde : deepEqualMaps originalPod.labels pod.labels = true
    · rw [if_pos hde]
      exact ⟨_, rfl, rfl⟩
    · rw [if_neg hde]
      by_cases href : referencedBy (originalPod.labels.getD []) items = true
      · rw [if_pos href]
        exact ⟨_, rfl, rfl⟩
      · rw [if_neg href]
        exact ⟨_, rfl, rfl⟩

theorem handle_never_denied_witness :
    ∃ v, handle (.ok (Pod.mk "p" (some [("app", "x")]))) GetResult.notFound
        (.ok []) = .response v ∧ v.isDenied = false :=
  handle_never_denied _ _ _ (fun _ h => GetResult.noConfusion h)

/-- C2: when the previous pod exists and its labels differ from the
proposed ones, the verdict carries a warning iff some listed policy's
selector matches the PREVIOUS pod's labels; the proposed labels play no
role in that equivalence. -/
theorem warning_iff_previous_referenced (pod originalPod : Pod)
    (items : List NetworkPolicy)
    (hch : deepEqualMaps originalPod.labels pod.labels = false) :
    (∃ w, handle (.ok pod) (.found originalPod) (.ok items)
        = .response (.allowedWithWarning "" w))
      ↔ ∃ np ∈ items, matchesLabels (originalPod.labels.getD [])
          np.podSelector.matchLabels = true := by
  have hne : ¬ (deepEqualMaps originalPod.labels pod.labels = true) := by
    simp [hch]
  simp only [handle]
  rw [if_neg hne]
  by_cases href : referencedBy (originalPod.labels.getD []) items = true
  · rw [if_pos href]
    simp only [referencedBy, List.any_eq_true] at href
    exact ⟨fun _ => href, fun _ => ⟨_, rfl⟩⟩
  · rw [if_neg href]
    constructor
    · intro ⟨w, hw⟩
      exact absurd hw (by simp)
    · intro hex
      exact absurd (by simpa only [referencedBy, List.any_eq_true] using hex)
        href

theorem warning_iff_previous_referenced_witness :
    (∃ w, handle (.ok (Pod.mk "p" (some [("app", "y")])))
        (.found (Pod.mk "p" (some [("app", "x")])))
        (.ok [NetworkPolicy.mk (LabelSelector.mk [("app", "x")] [])])
        = .response (.allowedWithWarning "" w))
      ↔ ∃ np ∈ [NetworkPolicy.mk (LabelSelector.mk [("app", "x")] [])],
          matchesLabels (((Pod.mk "p" (some [("app", "x")])).labels).getD [])
            np.podSelector.matchLabels = true :=
  warning_iff_previous_referenced _ _ _ (by decide)

/-- C3: with unique keys on both sides (as in any Go map), the change
detector reports "no change" exactly when the two label maps hold the
same set of (key, value) pairs, whatever their internal order; in
particular a map never differs from itself. -/
theorem changed_false_iff_pairs_equal (l1 l2 : Labels)
    (h1 : WFLabels l1) (h2 : WFLabels l2) :
    (changed (some l1) (some l2) = false
        ↔ ∀ kv : String × String, kv ∈ l1 ↔ kv ∈ l2)
      ∧ changed (some l1) (some l1) = false := by
  have key : ∀ (a b : Labels), WFLabels a → WFLabels b →
      (changed (some a) (some b) = false
        ↔ ∀ kv : String × String, kv ∈ a ↔ kv ∈ b) := by
    intro a b ha hb
    rw [changed, Bool.not_eq_false']
    show mapEqB a b = true ↔ _
    exact mapEqB_true_iff ha hb
  exact ⟨key l1 l2 h1 h2, (key l1 l1 h1 h1).mpr (fun kv => Iff.rfl)⟩

theorem changed_false_iff_pairs_equal_witness :
    ((changed (some [("app", "x"), ("tier", "db")])
          (some [("tier", "db"), ("app", "x")]) = false
        ↔ ∀ kv : String × String,
            kv ∈ [("app", "x"), ("tier", "db")]
              ↔ kv ∈ [("tier", "db"), ("app", "x")])
      ∧ changed (some [("app", "x"), ("tier", "db")])
          (some [("app", "x"), ("tier", "db")]) = false) :=
  changed_false_iff_pairs_equal _ _ (by decide) (by decide)

/-- C4: with unique keys in the label map, the selector matcher accepts
iff every (key, value) pair the selector requires appears in the label
map with exactly that value; keys of the map outside the selector are
irrelevant. -/
theorem matches_iff_selector_pairs_in_labels (L S : Labels)
    (h : WFLabels L) :
    matchesLabels L S = true ↔ ∀ kv ∈ S, kv ∈ L := by
  rw [matchesLabels, List.all_eq_true]
  constructor
  · intro hall kv hkv
    have hl := hall kv hkv
    rw [beq_iff_eq] at hl
    simpa using lookupLabel_mem hl
  · intro hmem kv hkv
    rw [beq_iff_eq]
    exact lookupLabel_of_mem h (by simpa using hmem kv hkv)

theorem matches_iff_selector_pairs_in_labels_witness :
    matchesLabels [("app", "x"), ("tier", "db")] [("app", "x")] = true
      ↔ ∀ kv ∈ [(("app" : String), ("x" : String))],
          kv ∈ [("app", "x"), ("tier", "db")] :=
  matches_iff_selector_pairs_in_labels _ _ (by decide)

/-- C5: the policy scan returns true iff at least one listed policy's
selector matches the given labels, returns false on the empty policy
list, and its boolean result is invariant under permutation of the
policy list. -/
theorem referencedBy_characterisation (L : Labels)
    (ps : List NetworkPolicy) :
    (referencedBy L ps = true
        ↔ ∃ np ∈ ps, matchesLabels L np.podSelector.matchLabels = true)
      ∧ referencedBy L [] = false
      ∧ ∀ ps2 : List NetworkPolicy, ps.Perm ps2 →
          referencedBy L ps = referencedBy L ps2 := by
  refine ⟨?_, rfl, fun ps2 hp => any_of_perm hp⟩
  simp only [referencedBy, List.any_eq_true]

theorem referencedBy_characterisation_witness :
    referencedBy [("app", "x")] [] = false
      ∧ referencedBy [("app", "x")]
          [NetworkPolicy.mk (LabelSelector.mk [("app", "x")] []),
           NetworkPolicy.mk (LabelSelector.mk [("app", "z")] [])]
        = referencedBy [("app", "x")]
            [NetworkPolicy.mk (LabelSelector.mk [("app", "z")] []),
             NetworkPolicy.mk (LabelSelector.mk [("app", "x")] [])] :=
  ⟨(referencedBy_characterisation [("app", "x")] []).2.1,
   (referencedBy_characterisation _ _).2.2 _ (List.Perm.swap _ _ _)⟩

/-- C6: the "new pod" allow fires exactly on the not-found outcome of
the previous-state fetch; a transient fetch error instead aborts with
`admission.Errored(500, err)` and is never turned into an allow. -/
theorem new_pod_branch_only_on_not_found (pod : Pod) (e : String)
    (listRes : Except String (List NetworkPolicy)) :
    handle (.ok pod) .notFound listRes
        = .response (.allowed "New pod creation")
      ∧ handle (.ok pod) (.transientError e) listRes = .errored 500 e :=
  ⟨rfl, rfl⟩

/-- C7: when the previous pod exists and its label map deep-equals the
proposed one, the verdict is the "no label changes" allow, and the
outcome of the policy-list collaborator (its items, or even its
failure) cannot change the result. -/
theorem unchanged_allowed_independent_of_policies (pod originalPod : Pod)
    (r1 r2 : Except String (List NetworkPolicy))
    (h : deepEqualMaps originalPod.labels pod.labels = true) :
    handle (.ok pod) (.found originalPod) r1
        = .response (.allowed "No label changes detected")
      ∧ handle (.ok pod) (.found originalPod) r1
        = handle (.ok pod) (.found originalPod) r2 := by
  simp only [handle]
  rw [if_pos h, if_pos h]
  exact ⟨rfl, rfl⟩

theorem unchanged_allowed_independent_of_policies_witness :
    handle (.ok (Pod.mk "p" (some [("app", "x")])))
        (.found (Pod.mk "p" (some [("app", "x")])))
        (.ok [NetworkPolicy.mk (LabelSelector.mk [("app", "x")] [])])
        = .response (.allowed "No label changes detected")
      ∧ handle (.ok (Pod.mk "p" (some [("app", "x")])))
          (.found (Pod.mk "p" (some [("app", "x")])))
          (.ok [NetworkPolicy.mk (LabelSelector.mk [("app", "x")] [])])
        = handle (.ok (Pod.mk "p" (some [("app", "x")])))
            (.found (Pod.mk "p" (some [("app", "x")]))) (.ok []) :=
  unchanged_allowed_independent_of_policies _ _ _ _ (by decide)

/-- C8: a selector with no required key/value pairs matches every label
map, the empty one included. -/
theorem empty_selector_matches_every_labelset (L : Labels) :
    matchesLabels L [] = true :=
  rfl

/-- C9: the scan consults only the `MatchLabels` part of a policy's
selector; its `MatchExpressions` are never read.  Hence a policy whose
selector has no key/value pairs — whatever expression requirements it
carries — matches every previous label set, and a changed pod in its
namespace always gets the warning verdict. -/
theorem match_expressions_ignored (pod originalPod : Pod)
    (np : NetworkPolicy) (items : List NetworkPolicy) (hmem : np ∈ items)
    (hml : np.podSelector.matchLabels = [])
    (hch : deepEqualMaps originalPod.labels pod.labels = false) :
    matchesLabels (originalPod.labels.getD [])
        np.podSelector.matchLabels = true
      ∧ handle (.ok pod) (.found originalPod) (.ok items)
        = .response (.allowedWithWarning ""
            "Pod labels are referenced in a NetworkPolicy") := by
  have hmatch : matchesLabels (originalPod.labels.getD [])
      np.podSelector.matchLabels = true := by
    rw [hml]
    rfl
  refine ⟨hmatch, ?_⟩
  have href : referencedBy (originalPod.labels.getD []) items = true := by
    rw [referencedBy, List.any_eq_true]
    exact ⟨np, hmem, hmatch⟩
  have hne : ¬ (deepEqualMaps originalPod.labels pod.labels = true) := by
    simp [hch]
  simp only [handle]
  rw [if_neg hne, if_pos href]

theorem match_expressions_ignored_witness :
    matchesLabels (((Pod.mk "p" (some [("app", "x")])).labels).getD [])
        (NetworkPolicy.mk (LabelSelector.mk []
          [LabelSelectorRequirement.mk "app" "In" ["x", "y"]])).podSelector.matchLabels
        = true
      ∧ handle (.ok (Pod.mk "p" (some [("app", "y")])))
          (.found (Pod.mk "p" (some [("app", "x")])))
          (.ok [NetworkPolicy.mk (LabelSelector.mk []
            [LabelSelectorRequirement.mk "app" "In" ["x", "y"]])])
        = .response (.allowedWithWarning ""
            "Pod labels are referenced in a NetworkPolicy") :=
  match_expressions_ignored _ _ _ _ (List.mem_singleton.mpr rfl) rfl
    (by decide)

/-- C10: `reflect.DeepEqual` distinguishes a nil label map from a
present-but-empty one, so the detector reports a change between them
in either direction, and `Handle` then runs the policy scan on the
previous (empty) label set. -/
theorem nil_vs_empty_labels_detected_as_change (pod originalPod : Pod)
    (items : List NetworkPolicy)
    (h1 : originalPod.labels = none) (h2 : pod.labels = some []) :
    changed none (some []) = true ∧ changed (some []) none = true
      ∧ handle (.ok pod) (.found originalPod) (.ok items)
        = (if referencedBy [] items then
            HandleResult.response (.allowedWithWarning ""
              "Pod labels are referenced in a NetworkPolicy")
          else
            HandleResult.response (.allowed
              "Labels are not referenced in any NetworkPolicy")) := by
  refine ⟨rfl, rfl, ?_⟩
  have hne : ¬ (deepEqualMaps originalPod.labels pod.labels = true) := by
    rw [h1, h2]
    simp [deepEqualMaps]
  simp only [handle]
  rw [if_neg hne, h1, Option.getD_none]

theorem nil_vs_empty_labels_detected_as_change_witness :
    changed none (some []) = true ∧ changed (some []) none = true
      ∧ handle (.ok (Pod.mk "p" (some [])))
          (.found (Pod.mk "p" none))
          (.ok [NetworkPolicy.mk (LabelSelector.mk [("app", "x")] [])])
        = (if referencedBy []
              [NetworkPolicy.mk (LabelSelector.mk [("app", "x")] [])] then
            HandleResult.response (.allowedWithWarning ""
              "Pod labels are referenced in a NetworkPolicy")
          else
            HandleResult.response (.allowed
              "Labels are not referenced in any NetworkPolicy")) :=
  nil_vs_empty_labels_detected_as_change _ _ _ rfl rfl
